import Mathlib

/-!
Verification development for the ohmyphoto edge worker.

The definitions below are shallow embeddings of the JavaScript source:
- `RateLimiterDO.fetch` embeds the Durable Object in `src/durable/rateLimiter.js`
  (actions `check`, `reset`, `peek`, `adjust`);
- `AlbumInfoDO.get` / `AlbumInfoDO.refresh` / `AlbumInfoDO.invalidate` embed the
  album-settings cache in `src/durable/albumInfo.js`;
- `extractSecrets`, `checkAlbumSecret`, `getAlbumInfoWithSecrets` embed the
  secret handling in `src/utils/albumSecrets.js` and `src/utils/album.js`;
- `imageSig` and `handleImageRequest` embed `src/utils/crypto.js` and
  `src/api/image.js`;
- `issueAdminSessionToken`, `verifyAdminSessionToken`, `issueHumanBypassToken`,
  `timingSafeEqual` embed `src/utils/session.js`;
- `softTurnstileGate` embeds the soft Turnstile gate of `src/api/album.js`.

JavaScript numbers that hold millisecond timestamps, counters, limits and
deltas are modelled as `Int`; a value that `Number(...)` coerces to `NaN`
(missing or non-numeric request field) is modelled as `none : Option Int`.
Host-runtime cryptographic primitives (`crypto.subtle` HMAC-SHA256 and
SHA-256) are not code of this repository; they appear as explicit function
parameters (`hmac`, `sha256Hex`), and the claims that depend on digests being
distinct take that distinctness as a hypothesis (the standard
collision-freedom assumption the spec itself makes for signatures).
Token strings manipulated by `split(".")` are modelled as `List Char`.
-/

/-- Persisted state of one rate-limiter Durable Object instance: the stored
record `{ count, resetAtMs }` (key `v` in durable storage; `load()` defaults
it to `{ count: 0, resetAtMs: 0 }`). -/
structure RLState where
  count : Int
  resetAtMs : Int
deriving DecidableEq, Repr

/-- Request body of the rate limiter protocol. `Option Int` fields model
`Number(body.x)` coercion: `none` stands for a missing or non-finite value. -/
inductive RLAction where
  | check (limit windowMs : Option Int)
  | reset (windowMs : Option Int)
  | peek
  | adjust (delta windowMs : Option Int)
deriving DecidableEq, Repr

/-- JSON responses produced by `RateLimiterDO.fetch`: the `check` shape
`{allowed, limit, remaining, resetAtMs}`, the `ok` shapes of
`reset`/`peek`/`adjust`, and the 400 error responses. -/
inductive RLResponse where
  | checkResp (allowed : Bool) (limit remaining resetAtMs : Int)
  | resetResp (resetAtMs : Int)
  | peekResp (count resetAtMs : Int)
  | adjustResp (count resetAtMs : Int)
  | invalidResp (status : Int)
deriving DecidableEq, Repr

/-- Embedding of `RateLimiterDO.fetch` (src/durable/rateLimiter.js, lines
28-112): dispatch on `body.action`, returning the JSON response together with
the durable state after the call (the state component is unchanged exactly in
the branches that perform no `storage.put`). `now` is `Date.now()`. -/
def RateLimiterDO.fetch (action : RLAction) (now : Int) (s : RLState) : RLResponse × RLState :=
  match action with
  | .reset windowMs =>
      let resetAtMs : Int :=
        match windowMs with
        | some w => if 0 < w then now + w else 0
        | none => 0
      (.resetResp resetAtMs, ⟨0, resetAtMs⟩)
  | .peek =>
      if 0 < s.resetAtMs ∧ s.resetAtMs ≤ now then (.peekResp 0 0, s)
      else (.peekResp s.count s.resetAtMs, s)
  | .adjust delta windowMs =>
      match delta with
      | none => (.invalidResp 400, s)
      | some d =>
          let v1 : RLState := if s.resetAtMs ≠ 0 ∧ s.resetAtMs ≤ now then ⟨0, 0⟩ else s
          let v2 : RLState :=
            match windowMs with
            | some w => if v1.resetAtMs ≤ 0 ∧ 0 < w then ⟨v1.count, now + w⟩ else v1
            | none => v1
          let c : Int := max 0 (v2.count + d)
          (.adjustResp c v2.resetAtMs, ⟨c, v2.resetAtMs⟩)
  | .check limit windowMs =>
      match limit, windowMs with
      | some l, some w =>
          if l ≤ 0 ∨ w ≤ 0 then (.invalidResp 400, s)
          else
            let v1 : RLState := if s.resetAtMs = 0 ∨ s.resetAtMs ≤ now then ⟨0, now + w⟩ else s
            let c : Int := v1.count + 1
            (.checkResp (decide (c ≤ l)) l (max 0 (l - c)) v1.resetAtMs, ⟨c, v1.resetAtMs⟩)
      | _, _ => (.invalidResp 400, s)

/-- State after `k` consecutive `check(limit, windowMs)` calls, all issued at
time `now`, starting from state `s`. -/
def rlCheckIter (limit windowMs now : Int) (s : RLState) : Nat → RLState
  | 0 => s
  | Nat.succ k =>
      (RateLimiterDO.fetch (.check (some limit) (some windowMs)) now (rlCheckIter limit windowMs now s k)).2

/-- Parsed shape of an album `info.json` as the worker inspects it.
`secret = some s` models `typeof info.secret === "string"` with value `s`
(`none`: absent or not a string); `secrets = some keys` models
`info.secrets` being an object whose keys are `keys` in insertion order;
`files`/`title` model the corresponding fields of the parsed JSON. -/
structure AlbumInfo where
  secret : Option String
  secrets : Option (List String)
  files : Option (List String)
  title : Option String
deriving DecidableEq, Repr

/-- One `Set.add` step: JavaScript `Set` insertion keeps the first occurrence
and preserves insertion order. -/
def setAdd (l : List String) (s : String) : List String :=
  if s ∈ l then l else l ++ [s]

/-- Embedding of `extractSecrets` (src/utils/albumSecrets.js): collect
`info.secret` when it is a nonempty string, then every nonempty key of the
`info.secrets` object, into a `Set`, and return it as an array. -/
def extractSecrets (info : AlbumInfo) : List String :=
  let fromSecret : List String :=
    match info.secret with
    | some s => if s = "" then [] else [s]
    | none => []
  let fromSecretsMap : List String :=
    match info.secrets with
    | some keys => keys.filter (fun k => k != "")
    | none => []
  (fromSecret ++ fromSecretsMap).foldl setAdd []

/-- Contents of the blob-storage object `albums/<albumId>/info.json` as the
cache's `refresh` observes it: absent, present but failing `obj.json()`, or
present with parsed value `info`. -/
inductive BucketObj where
  | missing
  | malformed
  | valid (info : AlbumInfo)
deriving DecidableEq, Repr

/-- Body of the cache record that `AlbumInfoDO.refresh` persists:
`notFound` is `{ok: false, status: 404}`, `parseError` is
`{ok: false, status: 500}`, and `value` is `{ok: true, info, secrets}`. -/
inductive EntryBody where
  | notFound
  | parseError
  | value (info : AlbumInfo) (secrets : List String)
deriving DecidableEq, Repr

/-- Persisted cache record of `AlbumInfoDO` (key `v`), tagging the body with
the album id and the `fetchedAtMs` timestamp. -/
structure AlbumEntry where
  albumId : String
  body : EntryBody
  fetchedAtMs : Int
deriving DecidableEq, Repr

/-- Embedding of `AlbumInfoDO.refresh` (src/durable/albumInfo.js, lines
37-59): read `albums/<albumId>/info.json`; a missing object is recorded as a
404 entry, malformed JSON as a 500 entry, and a parsed `info` as an ok entry
carrying `extractSecrets info`; each is stamped with `fetchedAtMs = now` and
saved. -/
def AlbumInfoDO.refresh (albumId : String) (bucket : BucketObj) (now : Int) : AlbumEntry :=
  match bucket with
  | .missing => ⟨albumId, .notFound, now⟩
  | .malformed => ⟨albumId, .parseError, now⟩
  | .valid info => ⟨albumId, .value info (extractSecrets info), now⟩

/-- TTL actually applied to a cached entry (src/durable/albumInfo.js, line 94):
`v.ok === false && v.status === 500 ? parseErrorTtlMs : ttlMs` — only the
parse-error entry gets the short TTL; not-found and ok entries use `ttlMs`. -/
def effectiveTtlMs (ttlMs parseErrorTtlMs : Int) (b : EntryBody) : Int :=
  match b with
  | .parseError => parseErrorTtlMs
  | _ => ttlMs

/-- Response of the cache's `get` action: the entry served and the `cached`
flag of the JSON response. -/
structure AlbumGetResult where
  entry : AlbumEntry
  cached : Bool
deriving DecidableEq, Repr

/-- Embedding of the `get` action of `AlbumInfoDO.fetch` (src/durable/
albumInfo.js, lines 89-101): serve the stored entry with `cached = true` when
it is for the same album and `0 ≤ now - fetchedAtMs < effectiveTtlMs`;
otherwise call `refresh` and return its result with `cached = false`.
`st` is the stored record (`none` after `invalidate` or on first use);
`ttlMs` and `parseErrorTtlMs` are the resolved TTL configuration (request
override / env / defaults 7 days and 60 s). -/
def AlbumInfoDO.get (albumId : String) (ttlMs parseErrorTtlMs now : Int) (bucket : BucketObj)
    (st : Option AlbumEntry) : AlbumGetResult × Option AlbumEntry :=
  match st with
  | some v =>
      if v.albumId = albumId ∧ 0 ≤ now - v.fetchedAtMs
          ∧ now - v.fetchedAtMs < effectiveTtlMs ttlMs parseErrorTtlMs v.body then
        (⟨v, true⟩, some v)
      else
        (⟨AlbumInfoDO.refresh albumId bucket now, false⟩,
          some (AlbumInfoDO.refresh albumId bucket now))
  | none =>
      (⟨AlbumInfoDO.refresh albumId bucket now, false⟩,
        some (AlbumInfoDO.refresh albumId bucket now))

/-- Embedding of `AlbumInfoDO.invalidate` (src/durable/albumInfo.js, lines
32-35): drop the memo and delete the durable record unconditionally. -/
def AlbumInfoDO.invalidate (_st : Option AlbumEntry) : Option AlbumEntry := none

/-- Result of `getAlbumInfoWithSecrets` (src/utils/album.js): either the
parsed info together with the extracted secret set, or a 404/500 status. -/
inductive LoadResult where
  | okLoad (info : AlbumInfo) (secrets : List String)
  | errLoad (status : Int)
deriving DecidableEq, Repr

/-- Embedding of `getAlbumInfoWithSecrets` (src/utils/album.js, lines
130-168) against the backing `info.json` object: a missing object yields
status 404, malformed JSON status 500, and a parsed `info` yields
`extractSecrets info`. Both of the source's paths (the Durable Object cache
and the direct bucket read) produce exactly this data for the current bucket
contents — the DO path returns the `info`/`secrets`/`status` computed by
`AlbumInfoDO.refresh` from the same object. -/
def getAlbumInfoWithSecrets (bucket : BucketObj) : LoadResult :=
  match bucket with
  | .missing => .errLoad 404
  | .malformed => .errLoad 500
  | .valid info => .okLoad info (extractSecrets info)

/-- Result of `checkAlbumSecret`: the success record `{info, matchedSecret}`
or the failure `Response` (status and body text). -/
inductive CheckSecretResult where
  | success (info : AlbumInfo) (matchedSecret : String)
  | failure (status : Int) (message : String)
deriving DecidableEq, Repr

/-- Embedding of `checkAlbumSecret` (src/utils/album.js, lines 177-202):
load info and secrets; missing object → 404 "Album not found", malformed →
500 "Bad info.json"; then reject with 403 "Invalid secret" when the provided
secret (already string-normalized, `String(secret || "")`) is empty or not a
member of the secret set, else succeed with the matched secret. The albumId
argument of the source only selects which `info.json` is read, which is the
`bucket` parameter here. -/
def checkAlbumSecret (secret : String) (bucket : BucketObj) : CheckSecretResult :=
  match getAlbumInfoWithSecrets bucket with
  | .errLoad status =>
      .failure status (if status = 404 then "Album not found" else "Bad info.json")
  | .okLoad info secrets =>
      if secret = "" ∨ secret ∉ secrets then .failure 403 "Invalid secret"
      else .success info secret

/-- Embedding of `imageSig` (src/utils/crypto.js, lines 124-126):
`sha256Hex` of the string `albumId:name:secret`. The SHA-256 hex digest
itself is the host primitive passed as `sha256Hex`. -/
def imageSig (sha256Hex : String → String) (albumId name secret : String) : String :=
  sha256Hex (albumId ++ ":" ++ name ++ ":" ++ secret)

/-- Outcome of `handleImageRequest`: the 403 Forbidden response, the 404 for
a missing image object, or the streamed image. -/
inductive ImageOutcome where
  | forbidden
  | imageNotFound
  | served
deriving DecidableEq, Repr

/-- Embedding of `handleImageRequest` (src/api/image.js): reject with 403
when the `?s=` signature is absent/empty, when the album info cannot be
loaded, when the secret set is empty, or when the signature matches no
current secret; accept when it equals `imageSig` for ANY secret in the set,
then serve the object (404 when the blob `objExists = false`). The `kind`
and key-building of the source only select which blob is fetched, which the
`objExists` parameter models. -/
def handleImageRequest (sha256Hex : String → String) (albumId name sig : String)
    (bucket : BucketObj) (objExists : Bool) : ImageOutcome :=
  if sig = "" then .forbidden
  else
    match getAlbumInfoWithSecrets bucket with
    | .errLoad _ => .forbidden
    | .okLoad _ secrets =>
        if secrets.isEmpty then .forbidden
        else if secrets.any (fun secret => imageSig sha256Hex albumId name secret == sig) then
          if objExists then .served else .imageNotFound
        else .forbidden

/-- Outcome of the soft Turnstile gate section of `handleAlbumRequest`:
the request proceeds, or it is rejected with 403 "Bot verification required"
(no token while enforced) or 403 "Bot verification failed" (token rejected by
the verification service while enforced). -/
inductive GateOutcome where
  | allowed
  | rejectNeedVerification
  | rejectVerificationFailed
deriving DecidableEq, Repr

/-- Count observed by `peekTurnstileSoftCount` (src/api/album.js, lines
59-73): the `count` field of the rate limiter's `peek` response. -/
def peekSoftCount (now : Int) (s : RLState) : Int :=
  match (RateLimiterDO.fetch .peek now s).1 with
  | .peekResp c _ => c
  | _ => 0

/-- Embedding of the soft Turnstile gate in `handleAlbumRequest`
(src/api/album.js, lines 128-200), for a request with no valid bypass cookie
and a reachable actor substrate. `s` is the state of the `turnstile_soft:<ip>`
rate-limiter instance; `tokenProvided` models a nonempty `turnstileToken`;
`verifyOk` models the external verification service's verdict for that token.
Peek the counter; when `count ≥ threshold` enforcement is active: no token →
reject, token rejected → reject, token accepted → allow WITHOUT touching the
counter. When not yet enforced the request is allowed: with no token the
counter is adjusted by +1 synchronously; with a token the verification runs
in the background and adjusts +1 only on failure. -/
def softTurnstileGate (threshold windowMs now : Int) (tokenProvided verifyOk : Bool)
    (s : RLState) : GateOutcome × RLState :=
  if threshold ≤ peekSoftCount now s then
    if tokenProvided = false then (.rejectNeedVerification, s)
    else if verifyOk then (.allowed, s)
    else (.rejectVerificationFailed, s)
  else
    if tokenProvided = false then
      (.allowed, (RateLimiterDO.fetch (.adjust (some 1) (some windowMs)) now s).2)
    else if verifyOk then (.allowed, s)
    else (.allowed, (RateLimiterDO.fetch (.adjust (some 1) (some windowMs)) now s).2)

/-- Counter state after the first token-less request of the C3 scenario
(threshold 2, 24-hour window) from a fresh IP. -/
def softState1 (t1 : Int) : RLState :=
  (softTurnstileGate 2 86400000 t1 false false ⟨0, 0⟩).2

/-- Counter state after the second token-less request of the C3 scenario. -/
def softState2 (t1 t2 : Int) : RLState :=
  (softTurnstileGate 2 86400000 t2 false false (softState1 t1)).2

/-- Payload of the admin session token: `{v, iat, exp}` as issued by
`issueAdminSessionToken` and re-checked by `verifyAdminSessionToken`
(the source checks `payload.v === 1` and `typeof iat/exp === "number"`;
the typed fields model the numeric requirement). -/
structure TokenPayload where
  v : Int
  iat : Int
  exp : Int
deriving DecidableEq, Repr

/-- Embedding of JavaScript `String.prototype.split(".")` on a token string
modelled as a character list. -/
def splitOnDot : List Char → List (List Char)
  | [] => [[]]
  | c :: rest =>
      if c = '.' then [] :: splitOnDot rest
      else
        match splitOnDot rest with
        | [] => [[c]]
        | h :: t => (c :: h) :: t

/-- Embedding of `timingSafeEqual` (src/utils/crypto.js, lines 109-115):
equal lengths, then the bitwise-or accumulation of the character-code xors
must be zero. -/
def timingSafeEqual (a b : List Char) : Bool :=
  decide (a.length = b.length) &&
    decide ((a.zip b).foldl (fun out p => out ||| (p.1.toNat ^^^ p.2.toNat)) 0 = 0)

/-- Embedding of `issueAdminSessionToken` (src/utils/session.js, lines
51-59): build the payload `{v: 1, iat: now, exp: now + 7d}`, serialize and
base64url-encode it with the host `encodePayload`, and append the dot and the
HMAC of the encoded payload under `adminToken`. -/
def issueAdminSessionToken (hmac : List Char → List Char → List Char)
    (encodePayload : TokenPayload → List Char)
    (adminToken : List Char) (nowMs : Int) : List Char :=
  let payloadB64 := encodePayload ⟨1, nowMs, nowMs + 7 * 24 * 60 * 60 * 1000⟩
  payloadB64 ++ '.' :: hmac adminToken payloadB64

/-- Embedding of `verifyAdminSessionToken` (src/utils/session.js, lines
65-85): split on dots; reject unless exactly two nonempty segments; reject
when the HMAC recomputed over the received payload segment does not match the
signature segment (constant-time comparison); reject when the payload does
not decode (`decodePayload` models base64url decode + `JSON.parse` + the
object/number shape checks), when its version is not 1, or when
`exp ≤ nowMs`. -/
def verifyAdminSessionToken (hmac : List Char → List Char → List Char)
    (decodePayload : List Char → Option TokenPayload)
    (sessionToken adminToken : List Char) (nowMs : Int) : Bool :=
  match splitOnDot sessionToken with
  | [payloadB64, sigB64] =>
      if payloadB64.isEmpty || sigB64.isEmpty then false
      else if !timingSafeEqual (hmac adminToken payloadB64) sigB64 then false
      else
        match decodePayload payloadB64 with
        | none => false
        | some payload =>
            if payload.v ≠ 1 then false
            else if payload.exp ≤ nowMs then false
            else true
  | _ => false

/-- Concrete HMAC stand-in used by the C4 witness (dot-free, nonempty, and
key-distinguishing on the witness inputs). -/
def hmacToy (k m : List Char) : List Char := k ++ m

/-- Concrete payload encoder used by the C4 witness. -/
def encodeToy (_p : TokenPayload) : List Char := ['a']

/-- Concrete payload decoder used by the C4 witness; inverse of `encodeToy`
on the witness payload. -/
def decodeToy (s : List Char) : Option TokenPayload :=
  if s = ['a'] then some ⟨1, 0, 604800000⟩ else none

/-- Payload of the human-bypass token issued by `issueHumanBypassToken`:
`{v, iat, exp, i}` where `i` is the truncated client-IP hash. -/
structure BypassPayload where
  v : Int
  iat : Int
  exp : Int
  i : String
deriving DecidableEq, Repr

/-- Embedding of the payload construction of `issueHumanBypassToken`
(src/utils/session.js, lines 93-102): `iat = now`,
`exp = now + Math.max(5000, Number(ttlMs) || 0)` (with `ttlMs = none`
modelling a non-numeric value, coerced to 0), and `i` the first 16 hex
characters of the client-IP SHA-256. The HMAC wrapping of this payload is as
for the admin token and is irrelevant to the expiry arithmetic. -/
def issueHumanBypassToken (sha256Hex : String → String) (clientIp : String)
    (ttlMs : Option Int) (nowMs : Int) : BypassPayload :=
  { v := 1, iat := nowMs, exp := nowMs + max 5000 (ttlMs.getD 0),
    i := (sha256Hex clientIp).take 16 }

theorem rlCheckIter_succ (limit windowMs now : Int) (s : RLState) (k : Nat) :
    rlCheckIter limit windowMs now s (k + 1)
      = (RateLimiterDO.fetch (.check (some limit) (some windowMs)) now
          (rlCheckIter limit windowMs now s k)).2 := rfl

theorem RateLimiterDO.check_expired (l w now : Int) (s : RLState) (hl : 0 < l) (hw : 0 < w)
    (hs : s.resetAtMs = 0 ∨ s.resetAtMs ≤ now) :
    RateLimiterDO.fetch (.check (some l) (some w)) now s
      = (.checkResp (decide ((1 : Int) ≤ l)) l (max 0 (l - 1)) (now + w), ⟨1, now + w⟩) := by
  simp only [RateLimiterDO.fetch]
  rw [if_neg (by omega : ¬(l ≤ 0 ∨ w ≤ 0)), if_pos hs]
  norm_num

theorem RateLimiterDO.check_active (l w now : Int) (s : RLState) (hl : 0 < l) (hw : 0 < w)
    (hs : s.resetAtMs ≠ 0) (hs2 : now < s.resetAtMs) :
    RateLimiterDO.fetch (.check (some l) (some w)) now s
      = (.checkResp (decide (s.count + 1 ≤ l)) l (max 0 (l - (s.count + 1))) s.resetAtMs,
          ⟨s.count + 1, s.resetAtMs⟩) := by
  simp only [RateLimiterDO.fetch]
  rw [if_neg (by omega : ¬(l ≤ 0 ∨ w ≤ 0)),
    if_neg (by omega : ¬(s.resetAtMs = 0 ∨ s.resetAtMs ≤ now))]

theorem rlCheckIter_state (limit windowMs now : Int) (s : RLState) (k : Nat)
    (hl : 0 < limit) (hw : 0 < windowMs) (ht : 0 ≤ now)
    (hs : s.resetAtMs = 0 ∨ s.resetAtMs ≤ now) :
    rlCheckIter limit windowMs now s (k + 1) = ⟨(k : Int) + 1, now + windowMs⟩ := by
  induction k with
  | zero =>
      rw [rlCheckIter_succ]
      show (RateLimiterDO.fetch (.check (some limit) (some windowMs)) now s).2 = _
      rw [RateLimiterDO.check_expired limit windowMs now s hl hw hs]
      norm_num
  | succ k ih =>
      rw [rlCheckIter_succ, ih]
      rw [RateLimiterDO.check_active limit windowMs now ⟨(k : Int) + 1, now + windowMs⟩ hl hw
        (by simp; omega) (by simp; omega)]
      norm_num

/-- C2: for every key and every positive limit `L` and window `W`, `check(L, W)`
implements a correct fixed window. Starting from an empty or expired window at
a time `t` (timestamps are nonnegative), the first call starts a window with
`resetAtMs = t + W`; the `(k+1)`-th call of the run has `count = k + 1` and is
allowed exactly when `count ≤ L`, with `remaining = max 0 (L - count)`; and a
call issued once `W` has elapsed from the window's start begins a fresh window
whose first call is allowed again. -/
theorem claim_C2 (L W t : Int) (s : RLState) (k : Nat)
    (hL : 0 < L) (hW : 0 < W) (ht : 0 ≤ t)
    (hs : s.resetAtMs = 0 ∨ s.resetAtMs ≤ t) :
    rlCheckIter L W t s (k + 1) = ⟨(k : Int) + 1, t + W⟩ ∧
    (RateLimiterDO.fetch (.check (some L) (some W)) t (rlCheckIter L W t s k)).1
      = .checkResp (decide ((k : Int) + 1 ≤ L)) L (max 0 (L - ((k : Int) + 1))) (t + W) ∧
    RateLimiterDO.fetch (.check (some L) (some W)) (t + W) (rlCheckIter L W t s (k + 1))
      = (.checkResp (decide ((1 : Int) ≤ L)) L (max 0 (L - 1)) (t + W + W), ⟨1, t + W + W⟩) := by
  refine ⟨rlCheckIter_state L W t s k hL hW ht hs, ?_, ?_⟩
  · cases k with
    | zero =>
        show (RateLimiterDO.fetch (.check (some L) (some W)) t s).1 = _
        rw [RateLimiterDO.check_expired L W t s hL hW hs]
        norm_num
    | succ k =>
        rw [rlCheckIter_state L W t s k hL hW ht hs]
        rw [RateLimiterDO.check_active L W t ⟨(k : Int) + 1, t + W⟩ hL hW
          (by simp; omega) (by simp; omega)]
        norm_num
  · rw [rlCheckIter_state L W t s k hL hW ht hs]
    rw [RateLimiterDO.check_expired L W (t + W) ⟨(k : Int) + 1, t + W⟩ hL hW (by simp)]

theorem claim_C2_witness :
    rlCheckIter 2 10 0 ⟨0, 0⟩ 3 = ⟨3, 10⟩ ∧
    (RateLimiterDO.fetch (.check (some 2) (some 10)) 0 (rlCheckIter 2 10 0 ⟨0, 0⟩ 2)).1
      = .checkResp false 2 0 10 ∧
    RateLimiterDO.fetch (.check (some 2) (some 10)) 10 (rlCheckIter 2 10 0 ⟨0, 0⟩ 3)
      = (.checkResp true 2 1 20, ⟨1, 20⟩) := by
  have h := claim_C2 2 10 0 ⟨0, 0⟩ 2 (by decide) (by decide) (by decide) (by simp)
  exact ⟨h.1, h.2.1, h.2.2⟩

/-- C7: `peek()` leaves the persisted `(count, resetAtMs)` state completely
unchanged (the peek branch performs no storage write), and when the stored
window has expired (`resetAtMs > 0` and `now ≥ resetAtMs`) it reports
`{count: 0, resetAtMs: 0}` while the stored values stay exactly as they were. -/
theorem claim_C7 (s : RLState) (now : Int) :
    (RateLimiterDO.fetch .peek now s).2 = s ∧
    (0 < s.resetAtMs → s.resetAtMs ≤ now →
      (RateLimiterDO.fetch .peek now s).1 = .peekResp 0 0 ∧
      (RateLimiterDO.fetch .peek now s).2.count = s.count ∧
      (RateLimiterDO.fetch .peek now s).2.resetAtMs = s.resetAtMs) := by
  have hframe : (RateLimiterDO.fetch .peek now s).2 = s := by
    simp only [RateLimiterDO.fetch]
    split <;> rfl
  refine ⟨hframe, fun h1 h2 => ⟨?_, by rw [hframe], by rw [hframe]⟩⟩
  simp only [RateLimiterDO.fetch]
  rw [if_pos ⟨h1, h2⟩]

theorem claim_C7_witness :
    (RateLimiterDO.fetch .peek 20 ⟨5, 10⟩).2 = ⟨5, 10⟩ ∧
    (RateLimiterDO.fetch .peek 20 ⟨5, 10⟩).1 = .peekResp 0 0 ∧
    (RateLimiterDO.fetch .peek 20 ⟨5, 10⟩).2.count = 5 ∧
    (RateLimiterDO.fetch .peek 20 ⟨5, 10⟩).2.resetAtMs = 10 := by
  have h := claim_C7 ⟨5, 10⟩ 20
  exact ⟨h.1, (h.2 (by decide) (by decide)).1, (h.2 (by decide) (by decide)).2.1,
    (h.2 (by decide) (by decide)).2.2⟩

/-- C8: `adjust(delta)` treats an expired window (`resetAtMs ≠ 0` and
`now ≥ resetAtMs`) as if the prior count were 0, the resulting persisted count
always equals `max 0 (effective prior count + delta)` (in particular it is
floored at 0), and when no window exists (`resetAtMs = 0`) and a positive
`windowMs` is supplied, a fresh window ending at `now + windowMs` is created. -/
theorem claim_C8 (s : RLState) (d now w : Int) (wOpt : Option Int) :
    (RateLimiterDO.fetch (.adjust (some d) wOpt) now s).2.count
      = max 0 ((if s.resetAtMs ≠ 0 ∧ s.resetAtMs ≤ now then 0 else s.count) + d) ∧
    0 ≤ (RateLimiterDO.fetch (.adjust (some d) wOpt) now s).2.count ∧
    (s.resetAtMs ≠ 0 → s.resetAtMs ≤ now →
      (RateLimiterDO.fetch (.adjust (some d) wOpt) now s).2.count = max 0 d) ∧
    (s.resetAtMs = 0 → 0 < w →
      (RateLimiterDO.fetch (.adjust (some d) (some w)) now s).2.resetAtMs = now + w) := by
  refine ⟨?_, ?_, ?_, ?_⟩
  · simp only [RateLimiterDO.fetch]
    split_ifs with h1 <;> cases wOpt <;> simp <;> split_ifs <;> simp
  · simp only [RateLimiterDO.fetch]
    cases wOpt <;> simp
  · intro h1 h2
    simp only [RateLimiterDO.fetch]
    rw [if_pos ⟨h1, h2⟩]
    cases wOpt <;> simp <;> split_ifs <;> simp
  · intro h1 h2
    simp only [RateLimiterDO.fetch]
    rw [if_neg (by simp [h1] : ¬(s.resetAtMs ≠ 0 ∧ s.resetAtMs ≤ now))]
    rw [if_pos ⟨by simp [h1], h2⟩]

theorem claim_C8_witness :
    (RateLimiterDO.fetch (.adjust (some (-3)) (some 10)) 50 ⟨5, 100⟩).2.count = 2 ∧
    (RateLimiterDO.fetch (.adjust (some (-7)) (some 10)) 50 ⟨5, 40⟩).2.count = 0 ∧
    (RateLimiterDO.fetch (.adjust (some 1) (some 10)) 7 ⟨0, 0⟩).2.resetAtMs = 17 := by
  have h1 := claim_C8 ⟨5, 100⟩ (-3) 50 10 (some 10)
  have h2 := claim_C8 ⟨5, 40⟩ (-7) 50 10 (some 10)
  have h3 := claim_C8 ⟨0, 0⟩ 1 7 10 (some 10)
  refine ⟨?_, ?_, h3.2.2.2 (by decide) (by decide)⟩
  · rw [h1.1]; decide
  · rw [h2.2.2.1 (by decide) (by decide)]; decide

theorem mem_setAdd {x a : String} {l : List String} : x ∈ setAdd l a ↔ x ∈ l ∨ x = a := by
  unfold setAdd
  split_ifs with h
  · constructor
    · exact fun hx => Or.inl hx
    · rintro (hx | rfl)
      · exact hx
      · exact h
  · simp

theorem mem_foldl_setAdd (l acc : List String) (x : String) :
    x ∈ l.foldl setAdd acc ↔ x ∈ acc ∨ x ∈ l := by
  induction l generalizing acc with
  | nil => simp
  | cons a t ih =>
      rw [List.foldl_cons, ih, mem_setAdd]
      simp [or_assoc]

theorem mem_extractSecrets (info : AlbumInfo) (x : String) :
    x ∈ extractSecrets info
      ↔ (x ≠ "" ∧ info.secret = some x)
        ∨ (x ≠ "" ∧ ∃ keys, info.secrets = some keys ∧ x ∈ keys) := by
  unfold extractSecrets
  rw [mem_foldl_setAdd]
  cases hsec : info.secret with
  | none =>
      cases hmap : info.secrets with
      | none => simp
      | some keys => simp [List.mem_filter, and_comm]
  | some s =>
      cases hmap : info.secrets with
      | none =>
          by_cases hse : s = "" <;> simp [hse] <;> aesop
      | some keys =>
          by_cases hse : s = "" <;> simp [hse, List.mem_filter] <;> aesop

/-- C1 counterexample: with the default configuration (`ttlMs = 604800000`,
i.e. 7 days, and `parseErrorTtlMs = 60000`), a not-found (404) entry fetched
at time 0 is still served from cache (`cached = true`) by a `get` at time
604799999 — one millisecond before the NORMAL TTL elapses — even though the
backing `info.json` now exists and even though every TTL shorter than the
normal one (in particular the 60 s parse-error TTL, the only short TTL in the
code) has long elapsed. A parse-error entry of the same age is refetched, and
`effectiveTtlMs` assigns the not-found body the full normal TTL; so the
not-found entry has no short TTL of its own, contradicting the claim. -/
theorem claim_C1_counterexample :
    effectiveTtlMs 604800000 60000 .notFound = 604800000 ∧
    AlbumInfoDO.get "a" 604800000 60000 604799999
        (.valid ⟨some "s", none, none, none⟩) (some ⟨"a", .notFound, 0⟩)
      = (⟨⟨"a", .notFound, 0⟩, true⟩, some ⟨"a", .notFound, 0⟩) ∧
    (AlbumInfoDO.get "a" 604800000 60000 604799999
        (.valid ⟨some "s", none, none, none⟩) (some ⟨"a", .parseError, 0⟩)).1.cached = false := by
  refine ⟨rfl, ?_, ?_⟩ <;> decide

/-- C1 (amended): a fetch finding no backing object records a terminal
not-found entry and a fetch finding malformed JSON records a parse-error
entry, but only the parse-error entry has its own (shorter, default 60 s)
TTL: the not-found entry is cached under the NORMAL entry TTL `ttlMs`
(default 7 days), and only a `get()` issued after that normal TTL has elapsed
refetches from backing storage instead of serving the stale not-found
entry. -/
theorem claim_C1 (albumId : String) (ttl pet now now2 f : Int) (bucket2 : BucketObj)
    (hageA : 0 ≤ now2 - f) (hageB : ttl ≤ now2 - f) :
    AlbumInfoDO.refresh albumId .missing now = ⟨albumId, .notFound, now⟩ ∧
    AlbumInfoDO.refresh albumId .malformed now = ⟨albumId, .parseError, now⟩ ∧
    effectiveTtlMs ttl pet .notFound = ttl ∧
    effectiveTtlMs ttl pet .parseError = pet ∧
    AlbumInfoDO.get albumId ttl pet now2 bucket2 (some ⟨albumId, .notFound, f⟩)
      = (⟨AlbumInfoDO.refresh albumId bucket2 now2, false⟩,
          some (AlbumInfoDO.refresh albumId bucket2 now2)) := by
  refine ⟨rfl, rfl, rfl, rfl, ?_⟩
  simp only [AlbumInfoDO.get]
  rw [if_neg]
  push_neg
  intro _ _
  simp only [effectiveTtlMs]
  omega

theorem claim_C1_witness :
    AlbumInfoDO.refresh "a" .missing 0 = ⟨"a", .notFound, 0⟩ ∧
    AlbumInfoDO.refresh "a" .malformed 0 = ⟨"a", .parseError, 0⟩ ∧
    effectiveTtlMs 100 10 .notFound = 100 ∧
    effectiveTtlMs 100 10 .parseError = 10 ∧
    AlbumInfoDO.get "a" 100 10 150 .missing (some ⟨"a", .notFound, 0⟩)
      = (⟨AlbumInfoDO.refresh "a" .missing 150, false⟩,
          some (AlbumInfoDO.refresh "a" .missing 150)) :=
  claim_C1 "a" 100 10 0 150 0 .missing (by decide) (by decide)

/-- C6 counterexample: a parse-error (status 500) entry fetched at time 0,
with the default TTLs (`ttlMs = 604800000`, `parseErrorTtlMs = 60000`), gets
`cached = false` from a repeat `get` at time 60000 although that is well
within `ttlMs` of its `fetchedAtMs` — the claim's "repeat get() within ttlMs
returns cached=true" fails for parse-error entries, which are governed by the
shorter `parseErrorTtlMs` instead. -/
theorem claim_C6_counterexample :
    (AlbumInfoDO.get "a" 604800000 60000 60000 .missing
        (some ⟨"a", .parseError, 0⟩)).1.cached = false ∧
    ((60000 : Int) - 0 < 604800000) := by
  refine ⟨by decide, by decide⟩

/-- C6 (amended): a repeat `get()` for the same albumId within the entry's
EFFECTIVE TTL (`ttlMs` for normal and not-found entries, `parseErrorTtlMs`
for parse-error entries) of its `fetchedAtMs` returns the stored entry with
`cached = true`; a `get()` once that effective TTL has elapsed refetches and
returns `cached = false`; and after `invalidate()` drops the entry, the very
next `get()` is a forced miss returning `cached = false` regardless of how
much TTL remained. -/
theorem claim_C6 (albumId : String) (ttl pet now : Int) (bucket : BucketObj) (v : AlbumEntry)
    (hid : v.albumId = albumId) (hage : 0 ≤ now - v.fetchedAtMs) :
    (now - v.fetchedAtMs < effectiveTtlMs ttl pet v.body →
      AlbumInfoDO.get albumId ttl pet now bucket (some v) = (⟨v, true⟩, some v)) ∧
    (effectiveTtlMs ttl pet v.body ≤ now - v.fetchedAtMs →
      AlbumInfoDO.get albumId ttl pet now bucket (some v)
        = (⟨AlbumInfoDO.refresh albumId bucket now, false⟩,
            some (AlbumInfoDO.refresh albumId bucket now))) ∧
    AlbumInfoDO.get albumId ttl pet now bucket (AlbumInfoDO.invalidate (some v))
      = (⟨AlbumInfoDO.refresh albumId bucket now, false⟩,
          some (AlbumInfoDO.refresh albumId bucket now)) := by
  refine ⟨fun hlt => ?_, fun hge => ?_, rfl⟩
  · simp only [AlbumInfoDO.get]
    rw [if_pos ⟨hid, hage, hlt⟩]
  · simp only [AlbumInfoDO.get]
    rw [if_neg]
    push_neg
    intro _ _
    omega

theorem claim_C6_witness :
    ((50 : Int) - 0 < effectiveTtlMs 100 10 (.value ⟨none, none, none, none⟩ []) →
      AlbumInfoDO.get "a" 100 10 50 .missing (some ⟨"a", .value ⟨none, none, none, none⟩ [], 0⟩)
        = (⟨⟨"a", .value ⟨none, none, none, none⟩ [], 0⟩, true⟩,
            some ⟨"a", .value ⟨none, none, none, none⟩ [], 0⟩)) ∧
    (effectiveTtlMs 100 10 (.value ⟨none, none, none, none⟩ []) ≤ (50 : Int) - 0 →
      AlbumInfoDO.get "a" 100 10 50 .missing (some ⟨"a", .value ⟨none, none, none, none⟩ [], 0⟩)
        = (⟨AlbumInfoDO.refresh "a" .missing 50, false⟩,
            some (AlbumInfoDO.refresh "a" .missing 50))) ∧
    AlbumInfoDO.get "a" 100 10 50 .missing
        (AlbumInfoDO.invalidate (some ⟨"a", .value ⟨none, none, none, none⟩ [], 0⟩))
      = (⟨AlbumInfoDO.refresh "a" .missing 50, false⟩,
          some (AlbumInfoDO.refresh "a" .missing 50)) :=
  claim_C6 "a" 100 10 50 .missing ⟨"a", .value ⟨none, none, none, none⟩ [], 0⟩ rfl (by decide)

/-- C5: a request whose signature equals `sha256hex("albumId:name:s")` for a
secret `s` currently in the album's secret set passes the signature check
(the handler verifies against every member of the set), while a signature
computed from a secret `sOld` that is no longer in the set fails the check
with Forbidden, provided its digest collides with no current secret's digest
(the claim's explicit no-collision assumption). The digest nonemptiness
hypothesis reflects that a SHA-256 hex digest is a 64-character string. -/
theorem claim_C5 (sha256Hex : String → String) (albumId name s sOld : String)
    (info : AlbumInfo) (objExists : Bool)
    (hmem : s ∈ extractSecrets info)
    (hne : imageSig sha256Hex albumId name s ≠ "")
    (hold : sOld ∉ extractSecrets info)
    (hnocoll : ∀ t ∈ extractSecrets info,
      imageSig sha256Hex albumId name sOld ≠ imageSig sha256Hex albumId name t) :
    handleImageRequest sha256Hex albumId name (imageSig sha256Hex albumId name s)
        (.valid info) true = .served ∧
    handleImageRequest sha256Hex albumId name (imageSig sha256Hex albumId name sOld)
        (.valid info) objExists = .forbidden := by
  have hnonempty : ¬(extractSecrets info).isEmpty = true := by
    simp only [List.isEmpty_eq_true]
    intro hemp
    rw [hemp] at hmem
    simp at hmem
  constructor
  · simp only [handleImageRequest, getAlbumInfoWithSecrets]
    rw [if_neg hne]
    rw [if_neg hnonempty]
    have hany : (extractSecrets info).any
        (fun secret => imageSig sha256Hex albumId name secret
          == imageSig sha256Hex albumId name s) = true := by
      simp only [List.any_eq_true]
      exact ⟨s, hmem, by simp⟩
    rw [if_pos hany]
    simp
  · simp only [handleImageRequest, getAlbumInfoWithSecrets]
    by_cases hz : imageSig sha256Hex albumId name sOld = ""
    · rw [if_pos hz]
    · rw [if_neg hz]
      rw [if_neg hnonempty]
      rw [if_neg]
      simp only [List.any_eq_true, not_exists]
      rintro x ⟨hx, hsig⟩
      exact hnocoll x hx (by simpa using hsig : _ = _).symm

theorem claim_C5_witness :
    handleImageRequest (fun x => "h" ++ x) "a" "p.jpg"
        (imageSig (fun x => "h" ++ x) "a" "p.jpg" "abc123")
        (.valid ⟨some "abc123", none, none, none⟩) true = .served ∧
    handleImageRequest (fun x => "h" ++ x) "a" "p.jpg"
        (imageSig (fun x => "h" ++ x) "a" "p.jpg" "zzz")
        (.valid ⟨some "abc123", none, none, none⟩) true = .forbidden := by
  have h := claim_C5 (fun x => "h" ++ x) "a" "p.jpg" "abc123" "zzz"
    ⟨some "abc123", none, none, none⟩ true
    (by decide) (by decide) (by decide) (by decide)
  exact h

/-- C10: the empty secret never authenticates. For every parsed `info.json`
value, `extractSecrets` never admits the empty string into the secret set,
and a listing request whose provided secret normalizes to the empty string is
rejected by `checkAlbumSecret` with the 403 "Invalid secret" outcome. -/
theorem claim_C10 (info : AlbumInfo) :
    checkAlbumSecret "" (.valid info) = .failure 403 "Invalid secret" ∧
    "" ∉ extractSecrets info := by
  constructor
  · simp only [checkAlbumSecret, getAlbumInfoWithSecrets]
    rw [if_pos (Or.inl trivial)]
  · rw [mem_extractSecrets]
    rintro (⟨h, _⟩ | ⟨h, _⟩) <;> exact h rfl

theorem peekSoftCount_eq (s : RLState) (now : Int) :
    peekSoftCount now s = if 0 < s.resetAtMs ∧ s.resetAtMs ≤ now then 0 else s.count := by
  unfold peekSoftCount
  simp only [RateLimiterDO.fetch]
  split_ifs <;> rfl

theorem adjust_one_fresh (now w : Int) (hw : 0 < w) :
    (RateLimiterDO.fetch (.adjust (some 1) (some w)) now ⟨0, 0⟩).2 = ⟨1, now + w⟩ := by
  simp only [RateLimiterDO.fetch]
  rw [if_neg (by simp : ¬((⟨0, 0⟩ : RLState).resetAtMs ≠ 0 ∧ (⟨0, 0⟩ : RLState).resetAtMs ≤ now))]
  rw [if_pos (⟨by norm_num, hw⟩ : ((⟨0, 0⟩ : RLState).resetAtMs ≤ 0 ∧ 0 < w))]
  norm_num

theorem adjust_one_active (s : RLState) (now w : Int)
    (hpos : 0 < s.resetAtMs) (hnot : now < s.resetAtMs) :
    (RateLimiterDO.fetch (.adjust (some 1) (some w)) now s).2
      = ⟨max 0 (s.count + 1), s.resetAtMs⟩ := by
  simp only [RateLimiterDO.fetch]
  rw [if_neg (by omega : ¬(s.resetAtMs ≠ 0 ∧ s.resetAtMs ≤ now))]
  rw [if_neg (by omega : ¬(s.resetAtMs ≤ 0 ∧ 0 < w))]

theorem softState1_eq (t1 : Int) (h0 : 0 ≤ t1) :
    softState1 t1 = ⟨1, t1 + 86400000⟩ := by
  unfold softState1 softTurnstileGate
  rw [peekSoftCount_eq]
  dsimp only
  norm_num
  rw [adjust_one_fresh t1 86400000 (by norm_num)]

theorem softState2_eq (t1 t2 : Int) (h0 : 0 ≤ t1) (h12 : t1 ≤ t2)
    (h2 : t2 < t1 + 86400000) :
    softState2 t1 t2 = ⟨2, t1 + 86400000⟩ := by
  unfold softState2 softTurnstileGate
  rw [softState1_eq t1 h0]
  rw [peekSoftCount_eq]
  dsimp only
  rw [if_neg (by omega : ¬(0 < t1 + 86400000 ∧ t1 + 86400000 ≤ t2))]
  rw [if_neg (by omega : ¬((2 : Int) ≤ 1))]
  norm_num
  rw [adjust_one_active ⟨1, t1 + 86400000⟩ t2 86400000 (by dsimp only; omega) (by dsimp only; omega)]
  norm_num

/-- C3: soft abuse gate with threshold 2 and a 24-hour window. For a fresh
client IP (counter state `{0, 0}`) with no valid bypass cookie, the 1st and
2nd album-listing requests carrying no verification token are allowed and
synchronously push the soft counter to 1 and then 2; the 3rd such request
observes `count ≥ 2` via `peek()` and is rejected with "Bot verification
required" when it carries no token, rejected with "Bot verification failed"
when its token is refused by the verification service, and allowed — with the
soft counter left completely unmodified — when the synchronous verification
succeeds. Times `t1 ≤ t2 ≤ t3` all fall within the 24-hour window opened at
`t1`. -/
theorem claim_C3 (t1 t2 t3 : Int) (h0 : 0 ≤ t1) (h12 : t1 ≤ t2) (h23 : t2 ≤ t3)
    (h3 : t3 < t1 + 86400000) :
    (softTurnstileGate 2 86400000 t1 false false ⟨0, 0⟩).1 = .allowed ∧
    (softState1 t1).count = 1 ∧
    (softTurnstileGate 2 86400000 t2 false false (softState1 t1)).1 = .allowed ∧
    (softState2 t1 t2).count = 2 ∧
    softTurnstileGate 2 86400000 t3 false false (softState2 t1 t2)
      = (.rejectNeedVerification, softState2 t1 t2) ∧
    softTurnstileGate 2 86400000 t3 true false (softState2 t1 t2)
      = (.rejectVerificationFailed, softState2 t1 t2) ∧
    softTurnstileGate 2 86400000 t3 true true (softState2 t1 t2)
      = (.allowed, softState2 t1 t2) := by
  have hs1 := softState1_eq t1 h0
  have hs2 := softState2_eq t1 t2 h0 h12 (by omega)
  have hpeek3 : peekSoftCount t3 ⟨2, t1 + 86400000⟩ = 2 := by
    rw [peekSoftCount_eq]
    dsimp only
    rw [if_neg (by omega : ¬(0 < t1 + 86400000 ∧ t1 + 86400000 ≤ t3))]
  refine ⟨?_, ?_, ?_, ?_, ?_, ?_, ?_⟩
  · unfold softTurnstileGate
    rw [peekSoftCount_eq]
    dsimp only
    norm_num
  · rw [hs1]
  · unfold softTurnstileGate
    rw [hs1, peekSoftCount_eq]
    dsimp only
    rw [if_neg (by omega : ¬(0 < t1 + 86400000 ∧ t1 + 86400000 ≤ t2))]
    norm_num
  · rw [hs2]
  · unfold softTurnstileGate
    rw [hs2, hpeek3]
    norm_num
  · unfold softTurnstileGate
    rw [hs2, hpeek3]
    norm_num
  · unfold softTurnstileGate
    rw [hs2, hpeek3]
    norm_num

theorem claim_C3_witness :
    (softTurnstileGate 2 86400000 0 false false ⟨0, 0⟩).1 = .allowed ∧
    (softState1 0).count = 1 ∧
    (softTurnstileGate 2 86400000 1 false false (softState1 0)).1 = .allowed ∧
    (softState2 0 1).count = 2 ∧
    softTurnstileGate 2 86400000 2 false false (softState2 0 1)
      = (.rejectNeedVerification, softState2 0 1) ∧
    softTurnstileGate 2 86400000 2 true false (softState2 0 1)
      = (.rejectVerificationFailed, softState2 0 1) ∧
    softTurnstileGate 2 86400000 2 true true (softState2 0 1)
      = (.allowed, softState2 0 1) :=
  claim_C3 0 1 2 (by decide) (by decide) (by decide) (by decide)

theorem nat_or_eq_zero_iff (a b : Nat) : a ||| b = 0 ↔ a = 0 ∧ b = 0 := by
  constructor
  · intro h
    refine ⟨?_, ?_⟩
    all_goals
      by_contra hne
      obtain ⟨i, hi⟩ := Nat.ne_zero_implies_bit_true hne
      have htest : (a ||| b).testBit i = true := by
        rw [Nat.testBit_or, hi]
        simp
      rw [h] at htest
      simp [Nat.zero_testBit] at htest
  · rintro ⟨rfl, rfl⟩
    rfl

theorem char_toNat_injective (a b : Char) (h : a.toNat = b.toNat) : a = b := by
  apply Char.eq_of_val_eq
  apply UInt32.toBitVec_injective
  apply BitVec.toNat_injective
  simpa [Char.toNat, UInt32.toNat] using h

theorem foldl_or_xor_eq_zero (l : List (Char × Char)) (acc : Nat) :
    l.foldl (fun out p => out ||| (p.1.toNat ^^^ p.2.toNat)) acc = 0
      ↔ acc = 0 ∧ ∀ p ∈ l, p.1 = p.2 := by
  induction l generalizing acc with
  | nil => simp
  | cons p t ih =>
      rw [List.foldl_cons, ih, nat_or_eq_zero_iff]
      constructor
      · rintro ⟨⟨hacc, hx⟩, hall⟩
        refine ⟨hacc, ?_⟩
        intro q hq
        rcases List.mem_cons.mp hq with h | h
        · rw [h]
          exact char_toNat_injective _ _ (Nat.xor_eq_zero.mp hx)
        · exact hall q h
      · rintro ⟨hacc, hall⟩
        refine ⟨⟨hacc, ?_⟩, fun q hq => hall q (List.mem_cons_of_mem _ hq)⟩
        rw [hall p (List.mem_cons_self _ _)]
        simp

theorem eq_of_zip_eq (a : List Char) : ∀ b : List Char, a.length = b.length →
    (∀ p ∈ a.zip b, p.1 = p.2) → a = b := by
  induction a with
  | nil =>
      intro b hlen _
      cases b with
      | nil => rfl
      | cons _ _ => simp at hlen
  | cons x xs ih =>
      intro b hlen h
      cases b with
      | nil => simp at hlen
      | cons y ys =>
          have hx : x = y := h (x, y) (by simp)
          have hxs : xs = ys := ih ys (by simpa using hlen) (fun p hp => h p (by simp [hp]))
          rw [hx, hxs]

theorem mem_zip_self_eq (a : List Char) (p : Char × Char) (hp : p ∈ a.zip a) : p.1 = p.2 := by
  induction a with
  | nil => simp at hp
  | cons x xs ih =>
      rw [List.zip_cons_cons] at hp
      rcases List.mem_cons.mp hp with h | h
      · rw [h]
      · exact ih h

theorem timingSafeEqual_iff (a b : List Char) : timingSafeEqual a b = true ↔ a = b := by
  unfold timingSafeEqual
  rw [Bool.and_eq_true, decide_eq_true_iff, decide_eq_true_iff]
  constructor
  · rintro ⟨hlen, hfold⟩
    rw [foldl_or_xor_eq_zero] at hfold
    exact eq_of_zip_eq a b hlen hfold.2
  · rintro rfl
    refine ⟨rfl, ?_⟩
    rw [foldl_or_xor_eq_zero]
    exact ⟨rfl, fun p hp => mem_zip_self_eq a p hp⟩

theorem splitOnDot_cons (c : Char) (rest : List Char) :
    splitOnDot (c :: rest)
      = if c = '.' then [] :: splitOnDot rest
        else match splitOnDot rest with
          | [] => [[c]]
          | h :: t => (c :: h) :: t := rfl

theorem splitOnDot_no_dot (a : List Char) (h : ∀ c ∈ a, c ≠ '.') :
    splitOnDot a = [a] := by
  induction a with
  | nil => rfl
  | cons c rest ih =>
      rw [splitOnDot_cons, if_neg (h c (by simp)), ih (fun x hx => h x (by simp [hx]))]

theorem splitOnDot_append (a b : List Char) (h : ∀ c ∈ a, c ≠ '.') :
    splitOnDot (a ++ '.' :: b) = a :: splitOnDot b := by
  induction a with
  | nil =>
      rw [List.nil_append, splitOnDot_cons, if_pos rfl]
  | cons c rest ih =>
      rw [List.cons_append, splitOnDot_cons, if_neg (h c (by simp)),
        ih (fun x hx => h x (by simp [hx]))]

/-- C4: admin session token round-trip. With the host primitives abstracted
(`hmac` for HMAC-SHA256, `encodePayload`/`decodePayload` for the base64url
JSON payload codec, with their contract stated as hypotheses: the codec
round-trips, encoded payloads and digests are nonempty and dot-free),
`verify(issue())` under the same key succeeds at every verification time
strictly before `expiresAt = issuedAt + 7d` and fails once `now ≥ expiresAt`;
it fails for every token whose payload segment differs from the issued one in
a way that changes the HMAC (the collision-freedom the claim assumes, since
equality of HMAC-SHA256 digests of different inputs is the only escape); and
it fails when verified under a key whose HMAC of the payload differs. -/
theorem claim_C4 (hmac : List Char → List Char → List Char)
    (encodePayload : TokenPayload → List Char)
    (decodePayload : List Char → Option TokenPayload)
    (key key2 : List Char) (now t : Int)
    (hdec : decodePayload (encodePayload ⟨1, now, now + 7 * 24 * 60 * 60 * 1000⟩)
      = some ⟨1, now, now + 7 * 24 * 60 * 60 * 1000⟩)
    (hencD : ∀ c ∈ encodePayload ⟨1, now, now + 7 * 24 * 60 * 60 * 1000⟩, c ≠ '.')
    (hencNe : encodePayload ⟨1, now, now + 7 * 24 * 60 * 60 * 1000⟩ ≠ [])
    (hsigD : ∀ c ∈ hmac key (encodePayload ⟨1, now, now + 7 * 24 * 60 * 60 * 1000⟩), c ≠ '.')
    (hsigNe : hmac key (encodePayload ⟨1, now, now + 7 * 24 * 60 * 60 * 1000⟩) ≠ []) :
    (t < now + 7 * 24 * 60 * 60 * 1000 →
      verifyAdminSessionToken hmac decodePayload
        (issueAdminSessionToken hmac encodePayload key now) key t = true) ∧
    (now + 7 * 24 * 60 * 60 * 1000 ≤ t →
      verifyAdminSessionToken hmac decodePayload
        (issueAdminSessionToken hmac encodePayload key now) key t = false) ∧
    (∀ p2 : List Char, (∀ c ∈ p2, c ≠ '.') →
      hmac key p2 ≠ hmac key (encodePayload ⟨1, now, now + 7 * 24 * 60 * 60 * 1000⟩) →
      verifyAdminSessionToken hmac decodePayload
        (p2 ++ '.' :: hmac key (encodePayload ⟨1, now, now + 7 * 24 * 60 * 60 * 1000⟩))
        key t = false) ∧
    (hmac key2 (encodePayload ⟨1, now, now + 7 * 24 * 60 * 60 * 1000⟩)
        ≠ hmac key (encodePayload ⟨1, now, now + 7 * 24 * 60 * 60 * 1000⟩) →
      verifyAdminSessionToken hmac decodePayload
        (issueAdminSessionToken hmac encodePayload key now) key2 t = false) := by
  have hsplit : splitOnDot (issueAdminSessionToken hmac encodePayload key now)
      = [encodePayload ⟨1, now, now + 7 * 24 * 60 * 60 * 1000⟩,
          hmac key (encodePayload ⟨1, now, now + 7 * 24 * 60 * 60 * 1000⟩)] := by
    show splitOnDot (encodePayload ⟨1, now, now + 7 * 24 * 60 * 60 * 1000⟩
      ++ '.' :: hmac key (encodePayload ⟨1, now, now + 7 * 24 * 60 * 60 * 1000⟩)) = _
    rw [splitOnDot_append _ _ hencD, splitOnDot_no_dot _ hsigD]
  have hempty : ((encodePayload ⟨1, now, now + 7 * 24 * 60 * 60 * 1000⟩).isEmpty
      || (hmac key (encodePayload ⟨1, now, now + 7 * 24 * 60 * 60 * 1000⟩)).isEmpty) ≠ true := by
    intro hcon
    rw [Bool.or_eq_true, List.isEmpty_eq_true, List.isEmpty_eq_true] at hcon
    rcases hcon with h | h
    · exact hencNe h
    · exact hsigNe h
  have htse : (!timingSafeEqual
      (hmac key (encodePayload ⟨1, now, now + 7 * 24 * 60 * 60 * 1000⟩))
      (hmac key (encodePayload ⟨1, now, now + 7 * 24 * 60 * 60 * 1000⟩))) ≠ true := by
    simp [timingSafeEqual_iff]
  refine ⟨?_, ?_, ?_, ?_⟩
  · intro hlt
    unfold verifyAdminSessionToken
    rw [hsplit]
    dsimp only
    rw [if_neg hempty, if_neg htse, hdec]
    dsimp only
    rw [if_neg (by simp : ¬(⟨1, now, now + 7 * 24 * 60 * 60 * 1000⟩ : TokenPayload).v ≠ 1)]
    rw [if_neg (by dsimp only; omega
      : ¬(⟨1, now, now + 7 * 24 * 60 * 60 * 1000⟩ : TokenPayload).exp ≤ t)]
  · intro hge
    unfold verifyAdminSessionToken
    rw [hsplit]
    dsimp only
    rw [if_neg hempty, if_neg htse, hdec]
    dsimp only
    rw [if_neg (by simp : ¬(⟨1, now, now + 7 * 24 * 60 * 60 * 1000⟩ : TokenPayload).v ≠ 1)]
    rw [if_pos (by dsimp only; omega
      : (⟨1, now, now + 7 * 24 * 60 * 60 * 1000⟩ : TokenPayload).exp ≤ t)]
  · intro p2 hp2D hp2ne
    unfold verifyAdminSessionToken
    rcases List.eq_nil_or_concat p2 with rfl | _
    · rw [show splitOnDot ([] ++ '.' :: hmac key
          (encodePayload ⟨1, now, now + 7 * 24 * 60 * 60 * 1000⟩))
          = [[], hmac key (encodePayload ⟨1, now, now + 7 * 24 * 60 * 60 * 1000⟩)]
        from by rw [splitOnDot_append _ _ (by simp), splitOnDot_no_dot _ hsigD]]
      dsimp only
      rw [if_pos (by simp)]
    · rw [splitOnDot_append _ _ hp2D, splitOnDot_no_dot _ hsigD]
      dsimp only
      by_cases hp2e : (p2.isEmpty || (hmac key
          (encodePayload ⟨1, now, now + 7 * 24 * 60 * 60 * 1000⟩)).isEmpty) = true
      · rw [if_pos hp2e]
      · rw [if_neg hp2e]
        rw [if_pos (by
          simp only [Bool.not_eq_true']
          rw [← Bool.not_eq_true, timingSafeEqual_iff]
          exact hp2ne)]
  · intro hkeys
    unfold verifyAdminSessionToken
    rw [hsplit]
    dsimp only
    rw [if_neg hempty]
    rw [if_pos (by
      simp only [Bool.not_eq_true']
      rw [← Bool.not_eq_true, timingSafeEqual_iff]
      exact hkeys)]

theorem claim_C4_witness :
    ((5 : Int) < 0 + 7 * 24 * 60 * 60 * 1000 →
      verifyAdminSessionToken hmacToy decodeToy
        (issueAdminSessionToken hmacToy encodeToy ['k'] 0) ['k'] 5 = true) ∧
    ((0 : Int) + 7 * 24 * 60 * 60 * 1000 ≤ 5 →
      verifyAdminSessionToken hmacToy decodeToy
        (issueAdminSessionToken hmacToy encodeToy ['k'] 0) ['k'] 5 = false) ∧
    (∀ p2 : List Char, (∀ c ∈ p2, c ≠ '.') →
      hmacToy ['k'] p2 ≠ hmacToy ['k'] (encodeToy ⟨1, 0, 0 + 7 * 24 * 60 * 60 * 1000⟩) →
      verifyAdminSessionToken hmacToy decodeToy
        (p2 ++ '.' :: hmacToy ['k'] (encodeToy ⟨1, 0, 0 + 7 * 24 * 60 * 60 * 1000⟩))
        ['k'] 5 = false) ∧
    (hmacToy ['q'] (encodeToy ⟨1, 0, 0 + 7 * 24 * 60 * 60 * 1000⟩)
        ≠ hmacToy ['k'] (encodeToy ⟨1, 0, 0 + 7 * 24 * 60 * 60 * 1000⟩) →
      verifyAdminSessionToken hmacToy decodeToy
        (issueAdminSessionToken hmacToy encodeToy ['k'] 0) ['q'] 5 = false) :=
  claim_C4 hmacToy encodeToy decodeToy ['k'] ['q'] 0 5
    (by decide) (by decide) (by decide) (by decide) (by decide)

/-- C9: every human-bypass token is issued with a minimum validity of 5
seconds: for every requested ttlMs — any integer, or a non-numeric value
(`none`) coerced to 0 — `issueHumanBypassToken` sets
`expiresAt = issuedAt + max(5000, ttl)` and hence the gap
`expiresAt - issuedAt` is always at least 5000 milliseconds. -/
theorem claim_C9 (sha256Hex : String → String) (clientIp : String)
    (ttlMs : Option Int) (nowMs : Int) :
    (issueHumanBypassToken sha256Hex clientIp ttlMs nowMs).exp
      = (issueHumanBypassToken sha256Hex clientIp ttlMs nowMs).iat
        + max 5000 (ttlMs.getD 0) ∧
    5000 ≤ (issueHumanBypassToken sha256Hex clientIp ttlMs nowMs).exp
      - (issueHumanBypassToken sha256Hex clientIp ttlMs nowMs).iat := by
  refine ⟨rfl, ?_⟩
  simp only [issueHumanBypassToken]
  have h := le_max_left (5000 : Int) (ttlMs.getD 0)
  omega
